import Mathlib

set_option maxHeartbeats 1000000

/-!
Shallow embedding of the goal-tracking logic of the "50@50" dashboard
application: the goal data model, the derived statistics (`stats`,
`chartData`, `timeProgress`), free-text ingestion (`handleUpdate`) and
tabular spreadsheet ingestion (`fetchFromGoogleSheets`).

JavaScript numbers are modelled as exact rationals (`ℚ`).  Where the source
can produce `NaN` (a failed `parseFloat` / `parseInt`), the parse functions
return `Option ℚ` with `none` standing for `NaN`; the tabular-ingestion code
guards every parse with an explicit `isNaN` check, which is modelled exactly
by `Option.getD`.
-/

/-- The `Goal` record from `types.ts`: `category` is a plain string there. -/
structure Goal where
  id : String
  name : String
  current : ℚ
  target : ℚ
  unit : String
  category : String
  deriving DecidableEq, Repr

/-- Result record of the `stats` memo. -/
structure Stats where
  averageProgress : ℚ
  completedGoals : Nat
  totalGoals : Nat
  deriving DecidableEq, Repr

/-- One entry of the `chartData` memo. -/
structure ChartEntry where
  name : String
  progress : ℚ
  remaining : ℚ
  deriving DecidableEq, Repr

/-- Result record of the `timeProgress` memo. -/
structure TimeInfo where
  percentage : ℚ
  daysLeft : ℤ
  daysElapsed : ℤ
  deriving DecidableEq, Repr

/-- The `stats` memo:
`totalProgress = goals.reduce((acc, g) => acc + g.current / g.target, 0) / goals.length`,
`averageProgress = totalProgress * 100`,
`completedGoals = goals.filter(g => g.current >= g.target).length`,
`totalGoals = goals.length`. -/
def stats (goals : List Goal) : Stats :=
  { averageProgress :=
      goals.foldl (fun acc g => acc + g.current / g.target) 0 / (goals.length : ℚ) * 100
    completedGoals := (goals.filter (fun g => decide (g.target ≤ g.current))).length
    totalGoals := goals.length }

/-- The `chartData` memo: for each goal,
`progress = Math.min((g.current / g.target) * 100, 100)` and
`remaining = Math.max(100 - (g.current / g.target) * 100, 0)`. -/
def chartData (goals : List Goal) : List ChartEntry :=
  goals.map (fun g =>
    { name := g.name
      progress := min (g.current / g.target * 100) 100
      remaining := max (100 - g.current / g.target * 100) 0 })

/-- The `timeProgress` memo, as a pure function of the three timestamps
(milliseconds since epoch): `total = end - start`, `elapsed = now - start`,
`percentage = Math.min(Math.max((elapsed / total) * 100, 0), 100)`,
`daysLeft = Math.ceil((end - now) / 86400000)`,
`daysElapsed = Math.floor((now - start) / 86400000)`. -/
def timeProgress (start finish now : ℚ) : TimeInfo :=
  { percentage := min (max ((now - start) / (finish - start) * 100) 0) 100
    daysLeft := Int.ceil ((finish - now) / (1000 * 60 * 60 * 24))
    daysElapsed := Int.floor ((now - start) / (1000 * 60 * 60 * 24)) }

/-- The seed goal list `INITIAL_DATA` from `constants.ts`. -/
def INITIAL_DATA : List Goal :=
  [ { id := "running", name := "Running (1 Mile)", current := 3, target := 51,
      unit := "Miles", category := "physical" },
    { id := "gym", name := "Gym Sessions", current := 2, target := 51,
      unit := "Sessions", category := "physical" },
    { id := "jump-ropes", name := "Jump Ropes", current := 2028, target := 51000,
      unit := "Ropes", category := "physical" },
    { id := "sit-ups", name := "Sit-ups", current := 65, target := 5000,
      unit := "Reps", category := "physical" },
    { id := "manache-shlok", name := "Manache Shlok", current := 22, target := 51,
      unit := "Shloks", category := "mental" },
    { id := "shir-sasan", name := "Shir-sasan", current := 3/2, target := 100,
      unit := "Minutes", category := "physical" },
    { id := "surya-namaskar", name := "Surya Namaskar", current := 12, target := 500,
      unit := "Reps", category := "physical" },
    { id := "push-ups", name := "Push-ups", current := 11, target := 500,
      unit := "Reps", category := "physical" } ]

/-- JavaScript whitespace (the characters matched by `\s` / trimmed by
`String.prototype.trim` that can realistically occur here): space, tab,
newline, carriage return, vertical tab, form feed, no-break space, BOM. -/
def isSpaceJS (c : Char) : Bool :=
  c = ' ' || c = '\t' || c = '\n' || c = '\r' ||
  c = Char.ofNat 11 || c = Char.ofNat 12 || c = Char.ofNat 160 || c = Char.ofNat 0xFEFF

/-- The regex character class `[\d,]`. -/
def isDigitComma (c : Char) : Bool := c.isDigit || c = ','

/-- The regex character class `[\d.]`. -/
def isDigitDot (c : Char) : Bool := c.isDigit || c = '.'

/-- Numeric value of a decimal digit character. -/
def charVal (c : Char) : Nat := c.toNat - 48

/-- Value of a string of decimal digits (most significant first). -/
def charsVal (cs : List Char) : Nat := cs.foldl (fun a c => 10 * a + charVal c) 0

/-- Decimal rendering helper; `fuel` bounds the recursion depth so that the
recursion is structural (and hence kernel-evaluable). -/
def natToCharsAux : Nat → Nat → List Char
  | 0, _ => []
  | fuel + 1, n =>
    if n < 10 then [Nat.digitChar n]
    else natToCharsAux fuel (n / 10) ++ [Nat.digitChar (n % 10)]

/-- Decimal rendering of a natural number, as produced by JavaScript template
interpolation of a non-negative integer. -/
def natToChars (n : Nat) : List Char := natToCharsAux (n + 1) n

/-- `String.prototype.trim`: strip whitespace from both ends. -/
def trimJS (s : String) : String :=
  String.mk (((s.data.dropWhile isSpaceJS).reverse.dropWhile isSpaceJS).reverse)

/-- `String.prototype.toLowerCase`, restricted to the ASCII range (the only
case-carrying characters occurring in this program's data). -/
def toLowerJS (s : String) : String :=
  String.mk (s.data.map Char.toLower)

/-- `name.replace(/\s+/g, '-')` on a character list: each maximal run of
whitespace becomes a single hyphen.  The boolean records whether the previous
character was part of a whitespace run. -/
def squashWs : Bool → List Char → List Char
  | _, [] => []
  | prev, c :: rest =>
    if isSpaceJS c then
      if prev then squashWs true rest else '-' :: squashWs true rest
    else c :: squashWs false rest

/-- `nameFromSheet.replace(/\s+/g, '-').toLowerCase()`. -/
def slugify (s : String) : String :=
  String.mk ((squashWs false s.data).map Char.toLower)

/-- The synthesized sheet-row id: the template `sheet-${index}-${slug}`. -/
def mkSheetId (index : Nat) (slug : String) : String :=
  String.mk ("sheet-".data ++ natToChars index ++ '-' :: slug.data)

/-- Magnitude part of `parseFloat`: digits, optional dot plus digits; `none`
when no digit is present (JavaScript `NaN`).  The trailing rest is returned
for exponent handling. -/
def parseFloatMag (t : List Char) : Option (ℚ × List Char) :=
  let ip := t.takeWhile Char.isDigit
  let r1 := t.dropWhile Char.isDigit
  match r1 with
  | '.' :: r =>
    let fp := r.takeWhile Char.isDigit
    if ip.isEmpty && fp.isEmpty then none
    else some ((charsVal ip : ℚ) + (charsVal fp : ℚ) / (10 : ℚ) ^ fp.length,
               r.dropWhile Char.isDigit)
  | _ => if ip.isEmpty then none else some ((charsVal ip : ℚ), r1)

/-- Sign-and-digits part of a `parseFloat` exponent: `none` when incomplete
(JavaScript ignores an incomplete exponent suffix). -/
def readExpSigned (rest : List Char) : Option (Bool × Nat) :=
  match rest with
  | '-' :: rest2 =>
    let ds := rest2.takeWhile Char.isDigit
    if ds.isEmpty then none else some (true, charsVal ds)
  | '+' :: rest2 =>
    let ds := rest2.takeWhile Char.isDigit
    if ds.isEmpty then none else some (false, charsVal ds)
  | _ =>
    let ds := rest.takeWhile Char.isDigit
    if ds.isEmpty then none else some (false, charsVal ds)

/-- Exponent suffix of `parseFloat` after the mantissa: `e`/`E`, optional
sign, digits; `none` when absent or incomplete. -/
def readExp (r : List Char) : Option (Bool × Nat) :=
  match r with
  | 'e' :: rest => readExpSigned rest
  | 'E' :: rest => readExpSigned rest
  | _ => none

/-- Apply a parsed exponent (sign, magnitude) to a mantissa value. -/
def applyExp (q : ℚ) : Option (Bool × Nat) → ℚ
  | none => q
  | some (false, k) => q * (10 : ℚ) ^ k
  | some (true, k) => q / (10 : ℚ) ^ k

/-- JavaScript `parseFloat` on a character list: leading whitespace skipped,
optional sign, decimal mantissa, optional exponent, trailing junk ignored;
`none` is `NaN`.  (The literals `Infinity`/`NaN` are not modelled; no cell in
any claim contains them.) -/
def parseFloatChars (s : List Char) : Option ℚ :=
  let t := s.dropWhile isSpaceJS
  match t with
  | '-' :: r => (parseFloatMag r).map (fun p => -(applyExp p.1 (readExp p.2)))
  | '+' :: r => (parseFloatMag r).map (fun p => applyExp p.1 (readExp p.2))
  | _ => (parseFloatMag t).map (fun p => applyExp p.1 (readExp p.2))

/-- JavaScript `parseInt(s)` (radix 10) on a character list: leading
whitespace skipped, optional sign, leading decimal digits; `none` is `NaN`.
(The `0x` hex prefix is not modelled; every call site passes digit-only
strings coming out of a regex group.) -/
def parseIntChars (s : List Char) : Option ℚ :=
  let t := s.dropWhile isSpaceJS
  match t with
  | '-' :: r =>
    let ds := r.takeWhile Char.isDigit
    if ds.isEmpty then none else some (-(charsVal ds : ℚ))
  | '+' :: r =>
    let ds := r.takeWhile Char.isDigit
    if ds.isEmpty then none else some ((charsVal ds : ℚ))
  | _ =>
    let ds := t.takeWhile Char.isDigit
    if ds.isEmpty then none else some ((charsVal ds : ℚ))

/-- One row of `fetchFromGoogleSheets` (source lines 611-640).  A missing cell
and an empty-string cell are both falsy in the source, so rows are modelled as
string lists with `getD i ""` for cell access.  `none` means the row is
skipped (`!row[0] || row[0].toString().trim() === ''`). -/
def goalOfRow (index : Nat) (row : List String) : Option Goal :=
  let c0 := row.getD 0 ""
  if c0 = "" || trimJS c0 = "" then none
  else
    let nameFromSheet := trimJS c0
    let c1 := row.getD 1 ""
    let currentVal : Option ℚ :=
      if c1 = "" then some 0 else parseFloatChars (c1.data.filter (fun c => c != ','))
    let c2 := row.getD 2 ""
    let targetVal : Option ℚ :=
      if c2 = "" then some 100 else parseFloatChars (c2.data.filter (fun c => c != ','))
    let c3 := row.getD 3 ""
    let unitVal := if c3 = "" then "Units" else trimJS c3
    let c4 := row.getD 4 ""
    let rawCategory := if c4 = "" then "physical" else toLowerJS (trimJS c4)
    let categoryVal :=
      if rawCategory = "physical" || rawCategory = "mental" || rawCategory = "other"
      then rawCategory else "physical"
    some { id := mkSheetId index (slugify nameFromSheet)
           name := nameFromSheet
           current := currentVal.getD 0
           target := targetVal.getD 100
           unit := unitVal
           category := categoryVal }

/-- The `rows.forEach((row, index) => ...)` accumulation of valid goals
(`syncedGoals`); `matchCount` always equals its length. -/
def syncGoals (rows : List (List String)) : List Goal :=
  rows.enum.filterMap (fun p => goalOfRow p.1 p.2)

/-- Outcome of the network round-trip, supplied as a parameter: the fetch is
external to the module.  `ok none` models a 2xx response whose JSON has no
`values` field. -/
inductive FetchOutcome where
  | timeout : FetchOutcome
  | httpError : String → FetchOutcome
  | ok : Option (List (List String)) → FetchOutcome
  deriving DecidableEq, Repr

/-- The user-visible result of a sync attempt. -/
inductive SyncResult where
  | configMissing : SyncResult
  | timedOut : SyncResult
  | failed : String → SyncResult
  | noData : SyncResult
  | noValidData : SyncResult
  | success : Nat → SyncResult
  deriving DecidableEq, Repr

/-- Whether a sync result is the success alert. -/
def SyncResult.isSuccess : SyncResult → Bool
  | SyncResult.success _ => true
  | _ => false

/-- `fetchFromGoogleSheets` (source lines 566-659) as a state transformer on
the goal list, with the transport outcome as a parameter.  The URL-to-id
extraction (lines 571-574) only rewrites a non-empty `sheetId` into another
non-empty one and is omitted.  Every failure path leaves the goal list
untouched; only `setGoals(syncedGoals)` replaces it. -/
def fetchFromGoogleSheets (sheetId apiKey : String) (outcome : FetchOutcome)
    (goals : List Goal) : List Goal × SyncResult :=
  if sheetId = "" || apiKey = "" then (goals, SyncResult.configMissing)
  else
    match outcome with
    | FetchOutcome.timeout => (goals, SyncResult.timedOut)
    | FetchOutcome.httpError msg => (goals, SyncResult.failed msg)
    | FetchOutcome.ok values =>
      match values with
      | none => (goals, SyncResult.noData)
      | some rows =>
        if rows.length = 0 then (goals, SyncResult.noData)
        else
          let synced := syncGoals rows
          if synced.length > 0 then (synced, SyncResult.success synced.length)
          else (goals, SyncResult.noValidData)

/-- `hay.includes(pat)` on character lists. -/
def containsChars (hay pat : List Char) : Bool :=
  match hay with
  | [] => pat.isEmpty
  | c :: rest => pat.isPrefixOf (c :: rest) || containsChars rest pat

/-- Match attempt for `/(\d+)\/(\d+)/` at the current position, returning
group 1.  The character classes are disjoint from the separators, so the
greedy runs never backtrack. -/
def tryNumSlashNum (cs : List Char) : Option (List Char) :=
  let d1 := cs.takeWhile Char.isDigit
  if d1.isEmpty then none
  else
    match cs.dropWhile Char.isDigit with
    | '/' :: r2 => if (r2.takeWhile Char.isDigit).isEmpty then none else some d1
    | _ => none

/-- Match attempt for `/([\d,]+)\s*\/\s*([\d,]+)/` at the current position. -/
def tryCommaSlashComma (cs : List Char) : Option (List Char) :=
  let d1 := cs.takeWhile isDigitComma
  if d1.isEmpty then none
  else
    match (cs.dropWhile isDigitComma).dropWhile isSpaceJS with
    | '/' :: r2 =>
      if (((r2.dropWhile isSpaceJS).takeWhile isDigitComma)).isEmpty then none else some d1
    | _ => none

/-- Match attempt for `/(\d+)\s*\/\s*([\d,]+)/` at the current position. -/
def tryNumSlashComma (cs : List Char) : Option (List Char) :=
  let d1 := cs.takeWhile Char.isDigit
  if d1.isEmpty then none
  else
    match (cs.dropWhile Char.isDigit).dropWhile isSpaceJS with
    | '/' :: r2 =>
      if (((r2.dropWhile isSpaceJS).takeWhile isDigitComma)).isEmpty then none else some d1
    | _ => none

/-- Match attempt for `/([\d.]+)\s*<lit>/` at the current position, where
`lit` is a fixed literal string. -/
def tryDotLit (lit : List Char) (cs : List Char) : Option (List Char) :=
  let d1 := cs.takeWhile isDigitDot
  if d1.isEmpty then none
  else if lit.isPrefixOf ((cs.dropWhile isDigitDot).dropWhile isSpaceJS) then some d1
  else none

/-- Match attempt for `/(\d+)\s*<lit>/` at the current position. -/
def tryNumLit (lit : List Char) (cs : List Char) : Option (List Char) :=
  let d1 := cs.takeWhile Char.isDigit
  if d1.isEmpty then none
  else if lit.isPrefixOf ((cs.dropWhile Char.isDigit).dropWhile isSpaceJS) then some d1
  else none

/-- Leftmost-match search, as `String.prototype.match` performs: try every
start position from the left. -/
def scanFor (tryAt : List Char → Option (List Char)) : List Char → Option (List Char)
  | [] => none
  | c :: rest =>
    match tryAt (c :: rest) with
    | some g => some g
    | none => scanFor tryAt rest

/-- `मिनिटे`, the unit literal in the Shir-sasan regex. -/
def minitLit : List Char := "मिनिटे".data

/-- `पूर्ण`, the unit literal in the Surya Namaskar / Push-ups regexes. -/
def purnaLit : List Char := "पूर्ण".data

/-- The apostrophe character (avoids a quote-in-string literal). -/
def apos : Char := Char.ofNat 39

/-- The anchor substring `Mom's Progress`. -/
def momsAnchor : List Char :=
  ['M', 'o', 'm', apos, 's', ' ', 'P', 'r', 'o', 'g', 'r', 'e', 's', 's']

/-- The eight anchor substrings of `handleUpdate`, in dispatch order. -/
def anchorsL : List (List Char) :=
  [ "Running".data, "Jump Ropes".data, "Sit-ups".data, "Manache Shlok".data,
    "Shir-sasan".data, momsAnchor, "Surya Namaskar".data, "Push-ups".data ]

/-- `newGoals.find(g => g.id === gid)` followed by `goal.current = v`: update
the first goal with the given id, leave the list unchanged when absent. -/
def updateFirst (gid : String) (v : ℚ) : List Goal → List Goal
  | [] => []
  | g :: gs =>
    if g.id = gid then { g with current := v } :: gs
    else g :: updateFirst gid v gs

/-- One iteration of the `lines.forEach` body of `handleUpdate` (source lines
89-139).  Where the source assigns `parseInt`/`parseFloat` of a regex group,
a failed parse would store `NaN`; the model stores `0` via `getD` — the only
groups that can fail to parse are an all-comma `[\d,]+` group and an
all-dot `[\d.]+` group, and no theorem below exercises those. -/
def processLine (gs : List Goal) (line : List Char) : List Goal :=
  if containsChars line "Running".data then
    match scanFor tryNumSlashNum line with
    | some g1 => updateFirst "running" ((parseIntChars g1).getD 0) gs
    | none => gs
  else if containsChars line "Jump Ropes".data then
    match scanFor tryCommaSlashComma line with
    | some g1 =>
      updateFirst "jump-ropes" ((parseIntChars (g1.filter (fun c => c != ','))).getD 0) gs
    | none => gs
  else if containsChars line "Sit-ups".data then
    match scanFor tryNumSlashComma line with
    | some g1 => updateFirst "sit-ups" ((parseIntChars g1).getD 0) gs
    | none => gs
  else if containsChars line "Manache Shlok".data then
    match scanFor tryNumSlashNum line with
    | some g1 => updateFirst "manache-shlok" ((parseIntChars g1).getD 0) gs
    | none => gs
  else if containsChars line "Shir-sasan".data then
    match scanFor (tryDotLit minitLit) line with
    | some g1 => updateFirst "shir-sasan" ((parseFloatChars g1).getD 0) gs
    | none => gs
  else if containsChars line momsAnchor then
    match scanFor tryNumSlashNum line with
    | some g1 => updateFirst "moms-progress" ((parseIntChars g1).getD 0) gs
    | none => gs
  else if containsChars line "Surya Namaskar".data then
    match scanFor (tryNumLit purnaLit) line with
    | some g1 => updateFirst "surya-namaskar" ((parseIntChars g1).getD 0) gs
    | none => gs
  else if containsChars line "Push-ups".data then
    match scanFor (tryNumLit purnaLit) line with
    | some g1 => updateFirst "push-ups" ((parseIntChars g1).getD 0) gs
    | none => gs
  else gs

/-- `rawText.split('\n')` on character lists (accumulator reversed on emit). -/
def splitOnNl : List Char → List Char → List (List Char)
  | acc, [] => [acc.reverse]
  | acc, c :: rest =>
    if c = '\n' then acc.reverse :: splitOnNl [] rest
    else splitOnNl (c :: acc) rest

/-- `handleUpdate` (source lines 83-147): split the pasted text into lines,
run the anchored parser over each line in order, and commit the resulting
list.  Every operation in the `try` block is total, so the `catch` branch is
unreachable and the function always succeeds with a whole-list commit. -/
def handleUpdate (goals : List Goal) (rawText : String) : List Goal :=
  (splitOnNl [] rawText.data).foldl processLine goals

/-! ## Helper lemmas -/

theorem list_foldl_add_map (f : Goal → ℚ) (l : List Goal) :
    ∀ a : ℚ, l.foldl (fun acc g => acc + f g) a = a + (l.map f).sum := by
  induction l with
  | nil => intro a; simp
  | cons g gs ih =>
    intro a
    simp only [List.foldl_cons, List.map_cons, List.sum_cons, ih, add_assoc]

theorem min_max_split (x : ℚ) :
    min x 100 + max (100 - x) 0 = 100 ∧ max (100 - x) 0 = max (100 - min x 100) 0 := by
  rcases le_total x 100 with h | h
  · rw [min_eq_left h]
    exact ⟨by rw [max_eq_left (by linarith)]; ring, rfl⟩
  · rw [min_eq_right h, max_eq_right (by linarith)]
    norm_num

theorem sum_of_ones (l : List ℚ) (h : ∀ x ∈ l, x = 1) : l.sum = (l.length : ℚ) := by
  induction l with
  | nil => simp
  | cons x xs ih =>
    simp only [List.sum_cons, List.length_cons, h x (by simp)]
    rw [ih (fun y hy => h y (by simp [hy]))]
    push_cast
    ring

/-! ## C1 -/

/-- C1: for every non-empty goal list, `stats` returns `averageProgress` equal
to the mean of `current/target` over the goals scaled to percent,
`completedGoals` equal to the count of goals with `current >= target`, and
`totalGoals` equal to the list length; on the empty list the divisor used for
the mean (the goal count) is zero. -/
theorem stats_spec (goals : List Goal) (_hne : goals ≠ []) :
    (stats goals).averageProgress
      = (goals.map (fun g => g.current / g.target)).sum / (goals.length : ℚ) * 100 ∧
    (stats goals).completedGoals = goals.countP (fun g => decide (g.target ≤ g.current)) ∧
    (stats goals).totalGoals = goals.length ∧
    (stats ([] : List Goal)).totalGoals = 0 := by
  refine ⟨?_, ?_, rfl, rfl⟩
  · simp [stats, list_foldl_add_map]
  · simp [stats, List.countP_eq_length_filter]

theorem stats_spec_witness :
    ([⟨"r", "R", 3, 51, "Miles", "physical"⟩] : List Goal) ≠ [] ∧
    (stats [⟨"r", "R", 3, 51, "Miles", "physical"⟩]).totalGoals
      = ([⟨"r", "R", 3, 51, "Miles", "physical"⟩] : List Goal).length :=
  ⟨by decide, (stats_spec _ (by decide)).2.2.1⟩

/-! ## C2 -/

/-- C2 counterexample: a goal with a negative `current` (reachable through
tabular ingestion of a negative cell) yields a chart entry whose `progress`
is below 0, refuting `progress` always lying in `[0,100]`. -/
theorem chartData_progress_counterexample :
    ∃ e ∈ chartData [⟨"x", "x", -1, 1, "u", "physical"⟩], e.progress < 0 := by
  refine ⟨_, List.mem_map_of_mem _ (List.mem_singleton_self _), ?_⟩
  show min ((-1 : ℚ) / 1 * 100) 100 < 0
  rw [min_eq_left (by norm_num)]
  norm_num

/-- C2 (amended): for every goal list, every chart entry satisfies
`progress + remaining = 100` and `remaining = max (100 - progress) 0`; and
when every goal has `0 ≤ current` and `0 < target`, every entry's `progress`
lies in `[0,100]`. -/
theorem chartData_spec (goals : List Goal) :
    (∀ e ∈ chartData goals,
        e.progress + e.remaining = 100 ∧ e.remaining = max (100 - e.progress) 0) ∧
    ((∀ g ∈ goals, 0 ≤ g.current ∧ 0 < g.target) →
      ∀ e ∈ chartData goals, 0 ≤ e.progress ∧ e.progress ≤ 100) := by
  constructor
  · intro e he
    simp only [chartData, List.mem_map] at he
    obtain ⟨g, -, rfl⟩ := he
    exact ⟨(min_max_split (g.current / g.target * 100)).1,
           (min_max_split (g.current / g.target * 100)).2⟩
  · intro hpos e he
    simp only [chartData, List.mem_map] at he
    obtain ⟨g, hg, rfl⟩ := he
    obtain ⟨hc, ht⟩ := hpos g hg
    have hx : 0 ≤ g.current / g.target * 100 :=
      mul_nonneg (div_nonneg hc (le_of_lt ht)) (by norm_num)
    exact ⟨le_min hx (by norm_num), min_le_right _ _⟩

theorem chartData_spec_witness :
    (∀ g ∈ ([⟨"x", "x", 1, 2, "u", "physical"⟩] : List Goal),
        0 ≤ g.current ∧ 0 < g.target) ∧
    (∀ e ∈ chartData [⟨"x", "x", 1, 2, "u", "physical"⟩],
        0 ≤ e.progress ∧ e.progress ≤ 100) :=
  ⟨by decide, (chartData_spec _).2 (by decide)⟩

/-! ## C3 -/

/-- C3: for fixed `start < end`, `timeProgress` is monotonically
non-decreasing in `now`, is 0 whenever `now ≤ start`, is 100 whenever
`now ≥ end`, equals `clamp((now-start)/(end-start)*100, 0, 100)`, and
`daysLeft = ceil((end-now)/86400000)`. -/
theorem timeProgress_spec (start finish : ℚ) (hlt : start < finish) :
    (∀ n1 n2 : ℚ, n1 ≤ n2 →
      (timeProgress start finish n1).percentage
        ≤ (timeProgress start finish n2).percentage) ∧
    (∀ now : ℚ, now ≤ start → (timeProgress start finish now).percentage = 0) ∧
    (∀ now : ℚ, finish ≤ now → (timeProgress start finish now).percentage = 100) ∧
    (∀ now : ℚ, (timeProgress start finish now).percentage
      = min (max ((now - start) / (finish - start) * 100) 0) 100) ∧
    (∀ now : ℚ, (timeProgress start finish now).daysLeft
      = Int.ceil ((finish - now) / 86400000)) := by
  have ht : (0:ℚ) < finish - start := by linarith
  refine ⟨?_, ?_, ?_, fun _ => rfl, fun _ => by norm_num [timeProgress]⟩
  · intro n1 n2 h12
    have h1 : (n1 - start) / (finish - start) * 100
        ≤ (n2 - start) / (finish - start) * 100 := by
      have hd := (div_le_div_iff_of_pos_right ht).mpr (sub_le_sub_right h12 start)
      exact mul_le_mul_of_nonneg_right hd (by norm_num)
    exact min_le_min (max_le_max h1 le_rfl) le_rfl
  · intro now hn
    have h0 : (now - start) / (finish - start) ≤ 0 :=
      div_nonpos_iff.mpr (Or.inr ⟨by linarith, le_of_lt ht⟩)
    have hx : (now - start) / (finish - start) * 100 ≤ 0 := by nlinarith
    show min (max ((now - start) / (finish - start) * 100) 0) 100 = 0
    rw [max_eq_right hx, min_eq_left (by norm_num : (0:ℚ) ≤ 100)]
  · intro now hn
    have h1 : (1:ℚ) ≤ (now - start) / (finish - start) :=
      (one_le_div ht).mpr (by linarith)
    have hx := mul_le_mul_of_nonneg_right h1 (by norm_num : (0:ℚ) ≤ 100)
    rw [one_mul] at hx
    show min (max ((now - start) / (finish - start) * 100) 0) 100 = 100
    rw [max_eq_left (by linarith), min_eq_right hx]

theorem timeProgress_spec_witness :
    (0:ℚ) < 86400000 ∧ (timeProgress 0 86400000 (-5)).percentage = 0 :=
  ⟨by norm_num, (timeProgress_spec 0 86400000 (by norm_num)).2.1 (-5) (by norm_num)⟩

/-! ## C4 -/

theorem processLine_no_anchor (gs : List Goal) (line : List Char)
    (h : ∀ a ∈ anchorsL, containsChars line a = false) : processLine gs line = gs := by
  have h1 := h "Running".data (by simp [anchorsL])
  have h2 := h "Jump Ropes".data (by simp [anchorsL])
  have h3 := h "Sit-ups".data (by simp [anchorsL])
  have h4 := h "Manache Shlok".data (by simp [anchorsL])
  have h5 := h "Shir-sasan".data (by simp [anchorsL])
  have h6 := h momsAnchor (by simp [anchorsL])
  have h7 := h "Surya Namaskar".data (by simp [anchorsL])
  have h8 := h "Push-ups".data (by simp [anchorsL])
  simp [processLine, h1, h2, h3, h4, h5, h6, h7, h8]

theorem foldl_processLine_no_anchor (lines : List (List Char)) :
    ∀ gs : List Goal,
      (∀ line ∈ lines, ∀ a ∈ anchorsL, containsChars line a = false) →
      lines.foldl processLine gs = gs := by
  induction lines with
  | nil => intro gs _; rfl
  | cons l ls ih =>
    intro gs h
    rw [List.foldl_cons, processLine_no_anchor gs l (h l (by simp))]
    exact ih gs (fun line hm => h line (by simp [hm]))

/-- C4: on the seed goal list, the input line `Running (1 Mile): 3/51` sets
the `current` of the goal with id `running` to 3 and leaves every other goal
and every other field unchanged (`updateFirst` updates exactly the first goal
with the given id and only its `current`); and any text none of whose lines
contains an anchor substring leaves the goal list unchanged (the operation
always succeeds: `handleUpdate` is total). -/
theorem handleUpdate_spec :
    handleUpdate INITIAL_DATA "Running (1 Mile): 3/51"
      = updateFirst "running" 3 INITIAL_DATA ∧
    ∀ (goals : List Goal) (text : String),
      (∀ line ∈ splitOnNl [] text.data, ∀ a ∈ anchorsL, containsChars line a = false) →
      handleUpdate goals text = goals := by
  constructor
  · rfl
  · intro goals text h
    exact foldl_processLine_no_anchor _ goals h

theorem handleUpdate_spec_witness :
    (∀ line ∈ splitOnNl [] ("hello world".data), ∀ a ∈ anchorsL,
        containsChars line a = false) ∧
    handleUpdate INITIAL_DATA "hello world" = INITIAL_DATA :=
  ⟨by decide, handleUpdate_spec.2 INITIAL_DATA "hello world" (by decide)⟩

/-! ## C5 -/

/-- C5: at index 0 the row `["Meditation", "10", "30", "Minutes", "mental"]`
yields exactly the goal `{id: "sheet-0-meditation", current: 10, target: 30,
unit: "Minutes", category: "mental"}`; any row whose name cell is absent or
blank after trimming is skipped; and a non-numeric current cell falls back to
`current = 0`. -/
theorem goalOfRow_spec :
    goalOfRow 0 ["Meditation", "10", "30", "Minutes", "mental"]
      = some { id := "sheet-0-meditation", name := "Meditation", current := 10,
               target := 30, unit := "Minutes", category := "mental" } ∧
    (∀ (i : Nat) (row : List String),
      trimJS (row.getD 0 "") = "" → goalOfRow i row = none) ∧
    goalOfRow 0 ["", "5", "10"] = none ∧
    (goalOfRow 0 ["X", "abc", "50"]).map Goal.current = some 0 := by
  refine ⟨rfl, ?_, rfl, rfl⟩
  intro i row h
  simp only [goalOfRow, h]
  simp

theorem goalOfRow_spec_witness :
    trimJS (([" "] : List String).getD 0 "") = "" ∧ goalOfRow 7 [" "] = none :=
  ⟨rfl, goalOfRow_spec.2.1 7 [" "] rfl⟩

/-! ## C6 -/

/-- C6: with configuration present, tabular ingestion of a fetched row grid
replaces the goal list (reporting success) exactly when at least one row
produced a valid goal; when no row is valid — including the empty row set —
it reports a non-success result and leaves the goal list unchanged. -/
theorem fetch_replace_iff (sheetId apiKey : String) (rows : List (List String))
    (goals : List Goal) (hs : sheetId ≠ "") (hk : apiKey ≠ "") :
    ((∃ p ∈ rows.enum, goalOfRow p.1 p.2 ≠ none) →
      fetchFromGoogleSheets sheetId apiKey (FetchOutcome.ok (some rows)) goals
        = (syncGoals rows, SyncResult.success (syncGoals rows).length)) ∧
    ((∀ p ∈ rows.enum, goalOfRow p.1 p.2 = none) →
      (fetchFromGoogleSheets sheetId apiKey (FetchOutcome.ok (some rows)) goals).1
        = goals ∧
      (fetchFromGoogleSheets sheetId apiKey (FetchOutcome.ok (some rows)) goals).2.isSuccess
        = false) ∧
    fetchFromGoogleSheets sheetId apiKey (FetchOutcome.ok (some [])) goals
      = (goals, SyncResult.noData) := by
  have hcond : (sheetId = "" || apiKey = "") = false := by simp [hs, hk]
  refine ⟨?_, ?_, by simp [fetchFromGoogleSheets, hcond]⟩
  · rintro ⟨p, hp, hne⟩
    have hrows : rows ≠ [] := by
      intro hnil
      subst hnil
      simp [List.enum] at hp
    have hsync : syncGoals rows ≠ [] := by
      intro hnil
      exact hne (List.filterMap_eq_nil_iff.mp hnil p hp)
    have hlen0 : ¬ rows.length = 0 := by simpa [List.length_eq_zero] using hrows
    have hlen : (syncGoals rows).length > 0 := List.length_pos.mpr hsync
    simp [fetchFromGoogleSheets, hcond, hlen0, hlen]
  · intro hall
    have hsync : syncGoals rows = [] := List.filterMap_eq_nil_iff.mpr hall
    by_cases hlen : rows.length = 0
    · simp [fetchFromGoogleSheets, hcond, hlen, SyncResult.isSuccess]
    · simp [fetchFromGoogleSheets, hcond, hlen, hsync, SyncResult.isSuccess]

theorem fetch_replace_iff_witness :
    ("sid" : String) ≠ "" ∧
    fetchFromGoogleSheets "sid" "key" (FetchOutcome.ok (some [["X"]])) []
      = (syncGoals [["X"]], SyncResult.success (syncGoals [["X"]]).length) :=
  ⟨by decide,
   (fetch_replace_iff "sid" "key" [["X"]] [] (by decide) (by decide)).1
     ⟨(0, ["X"]), by decide, by decide⟩⟩

/-! ## C7 -/

/-- C7: every ingestion outcome either leaves the goal list untouched or
commits a whole-batch replacement; in particular every failing outcome
(configuration missing, timeout, transport error, missing or empty rows, no
valid rows) leaves the prior goal list unchanged.  The free-text path cannot
fail at all: `handleUpdate` is a total function (its `catch` is dead code),
so the only state transitions are atomic whole-list commits. -/
theorem ingestion_failure_preserves (sheetId apiKey : String)
    (outcome : FetchOutcome) (goals : List Goal) :
    ((fetchFromGoogleSheets sheetId apiKey outcome goals).2.isSuccess = false →
      (fetchFromGoogleSheets sheetId apiKey outcome goals).1 = goals) ∧
    ((fetchFromGoogleSheets sheetId apiKey outcome goals).1 = goals ∨
      ∃ rows, outcome = FetchOutcome.ok (some rows) ∧
        (fetchFromGoogleSheets sheetId apiKey outcome goals).1 = syncGoals rows) := by
  by_cases hcfg : (sheetId = "" || apiKey = "") = true
  · exact ⟨fun _ => by simp [fetchFromGoogleSheets, hcfg],
      Or.inl (by simp [fetchFromGoogleSheets, hcfg])⟩
  · have hcfg' : (sheetId = "" || apiKey = "") = false := by simpa using hcfg
    cases outcome with
    | timeout =>
      exact ⟨fun _ => by simp [fetchFromGoogleSheets, hcfg'],
        Or.inl (by simp [fetchFromGoogleSheets, hcfg'])⟩
    | httpError msg =>
      exact ⟨fun _ => by simp [fetchFromGoogleSheets, hcfg'],
        Or.inl (by simp [fetchFromGoogleSheets, hcfg'])⟩
    | ok values =>
      cases values with
      | none =>
        exact ⟨fun _ => by simp [fetchFromGoogleSheets, hcfg'],
          Or.inl (by simp [fetchFromGoogleSheets, hcfg'])⟩
      | some rows =>
        by_cases hlen : rows.length = 0
        · exact ⟨fun _ => by simp [fetchFromGoogleSheets, hcfg', hlen],
            Or.inl (by simp [fetchFromGoogleSheets, hcfg', hlen])⟩
        · by_cases hpos : (syncGoals rows).length > 0
          · refine ⟨fun h => absurd h ?_,
              Or.inr ⟨rows, rfl, by simp [fetchFromGoogleSheets, hcfg', hlen, hpos]⟩⟩
            simp [fetchFromGoogleSheets, hcfg', hlen, hpos, SyncResult.isSuccess]
          · exact ⟨fun _ => by simp [fetchFromGoogleSheets, hcfg', hlen, hpos],
              Or.inl (by simp [fetchFromGoogleSheets, hcfg', hlen, hpos])⟩

theorem ingestion_failure_preserves_witness :
    (fetchFromGoogleSheets "" "" (FetchOutcome.ok none) INITIAL_DATA).2.isSuccess
      = false ∧
    (fetchFromGoogleSheets "" "" (FetchOutcome.ok none) INITIAL_DATA).1
      = INITIAL_DATA :=
  ⟨rfl, (ingestion_failure_preserves "" "" (FetchOutcome.ok none) INITIAL_DATA).1 rfl⟩

/-! ## C8 -/

/-- C8 counterexample: two goals whose progress ratios are 1/2 and 3/2
average to exactly 100 percent although neither has `current = target`,
refuting the claimed equivalence. -/
theorem stats_avg100_counterexample :
    (stats [⟨"a", "a", 1, 2, "u", "physical"⟩,
            ⟨"b", "b", 3, 2, "u", "physical"⟩]).averageProgress = 100 ∧
    ∃ g ∈ ([⟨"a", "a", 1, 2, "u", "physical"⟩,
            ⟨"b", "b", 3, 2, "u", "physical"⟩] : List Goal),
      g.current ≠ g.target := by
  constructor
  · simp only [stats, List.foldl_cons, List.foldl_nil, List.length_cons, List.length_nil]
    norm_num
  · exact ⟨⟨"a", "a", 1, 2, "u", "physical"⟩, by simp, by norm_num⟩

/-- C8 (amended): for every non-empty goal list, `averageProgress = 100` iff
the `current/target` ratios sum to the number of goals; in particular, if
every goal has `current = target` (with nonzero target) the average is 100,
but the converse direction of the original claim fails (overshoot on one goal
can offset shortfall on another). -/
theorem stats_avg100_spec (goals : List Goal) (hne : goals ≠ []) :
    ((stats goals).averageProgress = 100 ↔
      (goals.map (fun g => g.current / g.target)).sum = (goals.length : ℚ)) ∧
    ((∀ g ∈ goals, g.target ≠ 0 ∧ g.current = g.target) →
      (stats goals).averageProgress = 100) := by
  have hlen : (goals.length : ℚ) ≠ 0 := by
    have hl : goals.length ≠ 0 := fun h0 => hne (List.length_eq_zero.mp h0)
    exact_mod_cast hl
  have havg : (stats goals).averageProgress
      = (goals.map (fun g => g.current / g.target)).sum / (goals.length : ℚ) * 100 := by
    simp [stats, list_foldl_add_map]
  have hiff : (stats goals).averageProgress = 100 ↔
      (goals.map (fun g => g.current / g.target)).sum = (goals.length : ℚ) := by
    rw [havg]
    constructor
    · intro h
      field_simp at h
      linarith
    · intro h
      rw [h, div_self hlen, one_mul]
  refine ⟨hiff, fun h => hiff.mpr ?_⟩
  have hones : ∀ x ∈ goals.map (fun g => g.current / g.target), x = 1 := by
    intro x hx
    simp only [List.mem_map] at hx
    obtain ⟨g, hg, rfl⟩ := hx
    obtain ⟨ht, hc⟩ := h g hg
    rw [hc, div_self ht]
  rw [sum_of_ones _ hones, List.length_map]

theorem stats_avg100_spec_witness :
    ([⟨"a", "a", 5, 5, "u", "physical"⟩] : List Goal) ≠ [] ∧
    (stats [⟨"a", "a", 5, 5, "u", "physical"⟩]).averageProgress = 100 :=
  ⟨by decide, (stats_avg100_spec _ (by decide)).2 (by decide)⟩

/-! ## C9 -/

theorem charVal_digitChar (d : Nat) (h : d < 10) : charVal (Nat.digitChar d) = d := by
  interval_cases d <;> rfl

theorem isDigit_digitChar (d : Nat) (h : d < 10) :
    (Nat.digitChar d).isDigit = true := by
  interval_cases d <;> rfl

theorem charsVal_append (xs : List Char) (c : Char) :
    charsVal (xs ++ [c]) = 10 * charsVal xs + charVal c := by
  simp [charsVal, List.foldl_append]

theorem natToCharsAux_spec (fuel : Nat) :
    ∀ n : Nat, n < fuel →
      charsVal (natToCharsAux fuel n) = n ∧
      ∀ c ∈ natToCharsAux fuel n, c.isDigit = true := by
  induction fuel with
  | zero => intro n h; omega
  | succ f ih =>
    intro n h
    simp only [natToCharsAux]
    by_cases h10 : n < 10
    · rw [if_pos h10]
      refine ⟨by simp [charsVal, charVal_digitChar n h10], ?_⟩
      intro c hc
      rw [List.mem_singleton.mp hc]
      exact isDigit_digitChar n h10
    · have hdiv : n / 10 < f := by omega
      obtain ⟨ih1, ih2⟩ := ih (n / 10) hdiv
      rw [if_neg h10]
      constructor
      · rw [charsVal_append, ih1, charVal_digitChar (n % 10) (Nat.mod_lt n (by omega))]
        omega
      · intro c hc
        rcases List.mem_append.mp hc with hmem | hmem
        · exact ih2 c hmem
        · rw [List.mem_singleton.mp hmem]
          exact isDigit_digitChar (n % 10) (Nat.mod_lt n (by omega))

theorem charsVal_natToChars (n : Nat) : charsVal (natToChars n) = n :=
  (natToCharsAux_spec (n + 1) n (by omega)).1

theorem natToChars_isDigit (n : Nat) : ∀ c ∈ natToChars n, c.isDigit = true :=
  (natToCharsAux_spec (n + 1) n (by omega)).2

theorem natToChars_inj {m n : Nat} (h : natToChars m = natToChars n) : m = n := by
  have hm := charsVal_natToChars m
  rw [h, charsVal_natToChars] at hm
  omega

theorem digits_sep_inj (xs : List Char) :
    ∀ ys s t : List Char,
      (∀ c ∈ xs, c.isDigit = true) → (∀ c ∈ ys, c.isDigit = true) →
      xs ++ '-' :: s = ys ++ '-' :: t → xs = ys := by
  induction xs with
  | nil =>
    intro ys s t _ hy h
    cases ys with
    | nil => rfl
    | cons b ys2 =>
      simp only [List.nil_append, List.cons_append, List.cons.injEq] at h
      have hb := hy b (by simp)
      rw [← h.1] at hb
      exact absurd hb (by decide)
  | cons a xs2 ih =>
    intro ys s t hx hy h
    cases ys with
    | nil =>
      simp only [List.cons_append, List.nil_append, List.cons.injEq] at h
      have ha := hx a (by simp)
      rw [h.1] at ha
      exact absurd ha (by decide)
    | cons b ys2 =>
      simp only [List.cons_append, List.cons.injEq] at h
      obtain ⟨rfl, h2⟩ := h
      rw [ih ys2 s t (fun c hc => hx c (by simp [hc]))
        (fun c hc => hy c (by simp [hc])) h2]

theorem mkSheetId_inj_index {i j : Nat} {s t : String}
    (h : mkSheetId i s = mkSheetId j t) : i = j := by
  have hd : "sheet-".data ++ (natToChars i ++ '-' :: s.data)
      = "sheet-".data ++ (natToChars j ++ '-' :: t.data) := congrArg String.data h
  have h3 := List.append_cancel_left hd
  exact natToChars_inj
    (digits_sep_inj (natToChars i) (natToChars j) s.data t.data
      (natToChars_isDigit i) (natToChars_isDigit j) h3)

theorem goalOfRow_id (i : Nat) (row : List String) (g : Goal)
    (h : goalOfRow i row = some g) : ∃ s, g.id = mkSheetId i s := by
  simp only [goalOfRow] at h
  split at h
  · exact absurd h (by simp)
  · exact ⟨slugify (trimJS (row.getD 0 "")), by rw [← Option.some.inj h]⟩

/-- C9: the goals produced by one tabular-ingestion batch have pairwise
distinct ids: each id is `sheet-${index}-${slug}` and the decimal row index
is recoverable from the id (a digit run delimited by the hyphen), so distinct
rows get distinct ids whatever their (possibly equal) slugs are. -/
theorem syncGoals_ids_nodup (rows : List (List String)) :
    ((syncGoals rows).map Goal.id).Nodup := by
  have h1 : (syncGoals rows).map Goal.id
      = rows.enum.filterMap (fun p => (goalOfRow p.1 p.2).map Goal.id) := by
    simp [syncGoals, List.map_filterMap]
  rw [h1]
  have henum : rows.enum.Pairwise (fun a b => a.1 ≠ b.1) :=
    List.pairwise_map.mp (List.nodup_enum_map_fst rows)
  show (rows.enum.filterMap (fun p => (goalOfRow p.1 p.2).map Goal.id)).Pairwise (· ≠ ·)
  refine List.pairwise_filterMap.mpr (henum.imp (fun {a b} hab => ?_))
  intro x hx y hy
  simp only [Option.mem_def, Option.map_eq_some'] at hx hy
  obtain ⟨ga, hga, rfl⟩ := hx
  obtain ⟨gb, hgb, rfl⟩ := hy
  obtain ⟨sa, hsa⟩ := goalOfRow_id a.1 a.2 ga hga
  obtain ⟨sb, hsb⟩ := goalOfRow_id b.1 b.2 gb hgb
  intro heq
  rw [hsa, hsb] at heq
  exact hab (mkSheetId_inj_index heq)

/-! ## C10 -/

/-- C10: the row `["X", "5", "0"]` produces a goal whose `target` is 0 — the
string cell "0" is truthy and parses to 0, so the 100 default does not apply;
the default does apply to a missing cell and to a non-numeric cell.  Such a
goal makes the `current / target` divisions inside `stats` and `chartData`
divide by zero. -/
theorem sheetRow_target_zero :
    (∃ g, goalOfRow 0 ["X", "5", "0"] = some g ∧ g.target = 0) ∧
    (goalOfRow 0 ["X", "5"]).map Goal.target = some 100 ∧
    (goalOfRow 0 ["X", "5", "abc"]).map Goal.target = some 100 :=
  ⟨⟨_, rfl, rfl⟩, rfl, rfl⟩
